import Mathlib

/-!
Verification of the ambient-memory retrieval module
(src/patches/ambient-memory.ts, current V3 implementation).

The module is a pipeline: normalize the incoming message, shell out to a
Python script that queries three ChromaDB collections in priority order,
filter candidates by a distance ceiling, weight the primary tier, sort,
format, and greedily pack the formatted lines into a bounded context block.

Embedding conventions:
* Strings are Lean `String` (a structure over `List Char`); JavaScript
  string indices and Python slice indices both count Unicode code points
  here, which agrees with both runtimes on the BMP text the module handles.
* Numeric distances are `ℚ`. The literal `0.8` of the source is the exact
  rational 4/5; floating-point rounding is not modelled, no claim depends
  on it. The two 0.8 constants are written as explicit `Rat` constructor
  literals so that concrete runs reduce inside the kernel.
* The subprocess boundary (`execFileSync` + stdout + `JSON.parse`) is
  modelled as a function from the escaped query text (the only part of the
  generated Python script that varies) to a `StoreOutcome`: the subprocess
  may throw, time out, print output with no JSON line, print an
  unparseable JSON line, or print a parsed value (an error object or an
  array of chunks). `json.dumps` / `JSON.parse` round-tripping of
  well-formed values is the identity and is not re-modelled.
* The Python script itself is modelled by `runScript` over per-collection
  store data; Python exceptions are an explicit `Except` layer, matching
  the try/except structure of the script (only `get_collection` is wrapped
  per collection; everything else propagates to the outer handler).
-/

set_option maxRecDepth 1000000

namespace AmbientMemory

/-- Constant from ambient-memory.ts line 20. -/
def MAX_CONTEXT_CHARS : Nat := 2500

/-- Constant from ambient-memory.ts line 21. -/
def MIN_MESSAGE_LENGTH : Nat := 2

/-- Constant from ambient-memory.ts line 22: the distance ceiling 0.8,
as the exact rational 4/5 in constructor-literal form. -/
def MAX_DISTANCE : ℚ := ⟨4, 5, by decide, by decide⟩

/-- The literal 0.8 of line 78 (`dist * 0.8`), the priority weight of the
summary tier, as the exact rational 4/5 in constructor-literal form. -/
def SUMMARY_WEIGHT : ℚ := ⟨4, 5, by decide, by decide⟩

/-- Sanity: the constructor literal is the rational number 4/5. -/
theorem MAX_DISTANCE_eq : MAX_DISTANCE = 4 / 5 := by
  rw [MAX_DISTANCE, Rat.mk'_eq_divInt, Rat.divInt_eq_div]; norm_num

/-- Sanity: the constructor literal is the rational number 4/5. -/
theorem SUMMARY_WEIGHT_eq : SUMMARY_WEIGHT = 4 / 5 := by
  rw [SUMMARY_WEIGHT, Rat.mk'_eq_divInt, Rat.divInt_eq_div]; norm_num

/-- JavaScript regex `\s` / `trim` whitespace, restricted to the ASCII
whitespace characters (the Unicode space classes are not used by any input
considered here). -/
def isJsSpace (c : Char) : Bool :=
  c = ' ' || c = '\t' || c = '\n' || c = '\r' || c = '\x0B' || c = '\x0C'

/-- Scanner for the regex `^\[.*?\]` of line 29: after the opening `[`,
lazily consume characters up to the first `]`; `.` does not match line
terminators, so a newline before any `]` means the regex does not match. -/
def dropBracketAux : List Char → Option (List Char)
  | [] => none
  | c :: rest =>
    if c = ']' then some rest
    else if c = '\n' || c = '\r' then none
    else dropBracketAux rest

/-- `.replace(/^\[.*?\]\s*/g, "")` of line 29. The regex is anchored, so
despite the `g` flag it strips at most one leading bracketed tag together
with the whitespace that follows it. -/
def stripBracketTag : List Char → List Char
  | '[' :: rest =>
    match dropBracketAux rest with
    | some after => after.dropWhile isJsSpace
    | none => '[' :: rest
  | l => l

/-- `.replace(/^System:\s*/gi, "")` of line 30: strip one leading
case-insensitive `System:` marker and the whitespace after it. -/
def stripSystemTag (l : List Char) : List Char :=
  if (l.take 7).map Char.toLower = "system:".data then (l.drop 7).dropWhile isJsSpace
  else l

/-- `.trim()` of line 31. -/
def jsTrim (l : List Char) : List Char :=
  ((l.dropWhile isJsSpace).reverse.dropWhile isJsSpace).reverse

/-- The query normalization of lines 28-31. -/
def normalizeQuery (s : String) : String :=
  ⟨jsTrim (stripSystemTag (stripBracketTag s.data))⟩

/-- Replace every occurrence of the character `c` by the string `r`
(one JavaScript `.replace(/c/g, r)` pass). -/
def replAll (c : Char) (r : List Char) : List Char → List Char
  | [] => []
  | x :: xs => (if x = c then r else [x]) ++ replAll c r xs

/-- The four sequential escape passes of lines 38-42 producing `safeQuery`:
backslash, double quote, newline, carriage return. -/
def jsEscape (l : List Char) : List Char :=
  replAll '\r' ['\\', 'r']
    (replAll '\n' ['\\', 'n']
      (replAll '"' ['\\', '"']
        (replAll '\\' ['\\', '\\'] l)))

/-- String-level wrapper for `jsEscape`. -/
def jsEscapeStr (s : String) : String := ⟨jsEscape s.data⟩

/-- `toLowerCase()` restricted to the ASCII case mapping. -/
def lowerStr (s : String) : String := ⟨s.data.map Char.toLower⟩

/-- Boolean list prefix test, the semantics of `String.startsWith`. -/
def startsWithL : List Char → List Char → Bool
  | [], _ => true
  | _ :: _, [] => false
  | p :: ps, s :: ss => p == s && startsWithL ps ss

/-- Boolean substring test, the semantics of `String.includes`. -/
def hasSubL (p : List Char) : List Char → Bool
  | [] => p.isEmpty
  | c :: rest => startsWithL p (c :: rest) || hasSubL p rest

/-- `s.includes(pat)`. -/
def includesStr (s pat : String) : Bool := hasSubL pat.data s.data

/-- `s.startsWith(pat)`. -/
def startsWithStr (s pat : String) : Bool := startsWithL pat.data s.data

/-- The five substring noise markers checked with `.includes` in
lines 137-141. -/
def noiseMarkers : List String :=
  ["heartbeat", "self-ping keepalive", "read heartbeat.md", "cron job", "hook hook:"]

/-- The noise pre-filter of lines 135-145: five case-insensitive substring
checks plus the `startsWith("system:")` check, all on the lowercased raw
message. -/
def noiseFilter (messageText : String) : Bool :=
  let lower := lowerStr messageText
  includesStr lower "heartbeat" ||
  includesStr lower "self-ping keepalive" ||
  includesStr lower "read heartbeat.md" ||
  includesStr lower "cron job" ||
  includesStr lower "hook hook:" ||
  startsWithStr lower "system:"

/-- One match row returned by `collection.query` for one document:
the document text, its distance (absent distances are possible, line 71),
and the optional `source` metadata field (line 73 defaults it to the
collection name). -/
structure MatchRow where
  doc : String
  dist : Option ℚ
  src : Option String
deriving DecidableEq

/-- What the store does for one named collection: `get_collection` raises
(line 57-59), the collection is empty (line 60), `collection.query` raises
(uncaught, propagates to the outer handler), or it returns match rows. -/
inductive CollectionResult
  | missing
  | empty
  | queryFails
  | results (ms : List MatchRow)
deriving DecidableEq

/-- One entry of `all_chunks` (lines 79-84). -/
structure Chunk where
  text : String
  source : String
  distance : ℚ
  type : String
deriving DecidableEq

/-- The adjusted distance stored in a chunk for a present raw distance
(lines 78 and 82): the summary tier is scaled by 0.8, and the Python
expression `effective_dist or 99` replaces a (falsy) zero by 99. -/
def effectiveDistance (isSummary : Bool) (d : ℚ) : ℚ :=
  let eff := if isSummary then d * SUMMARY_WEIGHT else d
  if eff = 0 then 99 else eff

/-- Processing of one match row (lines 70-84). A present distance above
the ceiling is skipped; an absent distance in the summary tier raises a
`TypeError` (`None * 0.8`), and in a fallback tier yields the sentinel 99
via `effective_dist or 99`. -/
def processMatch (colName : String) (m : MatchRow) : Except String (Option Chunk) :=
  let source := m.src.getD colName
  let isSummary := colName == "memory_summaries"
  match m.dist with
  | some d =>
    if MAX_DISTANCE < d then Except.ok none
    else Except.ok (some
      { text := ⟨m.doc.data.take 400⟩
        source := source
        distance := effectiveDistance isSummary d
        type := if isSummary then "summary" else "raw" })
  | none =>
    if isSummary then Except.error "TypeError"
    else Except.ok (some
      { text := ⟨m.doc.data.take 400⟩
        source := source
        distance := 99
        type := "raw" })

/-- Processing of all match rows of one collection; a raised `TypeError`
aborts the whole loop (it is only caught by the outer try of line 47). -/
def processMatches (colName : String) : List MatchRow → Except String (List Chunk)
  | [] => Except.ok []
  | m :: ms =>
    match processMatch colName m with
    | Except.error e => Except.error e
    | Except.ok none => processMatches colName ms
    | Except.ok (some c) =>
      match processMatches colName ms with
      | Except.error e => Except.error e
      | Except.ok cs => Except.ok (c :: cs)

/-- One iteration of the collection loop (lines 55-84): only the
`get_collection` call is inside the per-collection try/except, so a
missing collection is skipped; an empty collection is skipped; a failing
query or a processing error propagates. -/
def processCollection (store : String → CollectionResult) (colName : String) :
    Except String (List Chunk) :=
  match store colName with
  | CollectionResult.missing => Except.ok []
  | CollectionResult.empty => Except.ok []
  | CollectionResult.queryFails => Except.error "QueryError"
  | CollectionResult.results ms => processMatches colName ms

/-- The fixed collection priority order of line 52. -/
def priorityCollections : List String :=
  ["memory_summaries", "telegram_memory", "workspace_memory"]

/-- The collection loop accumulating `all_chunks`; an uncaught exception
anywhere discards everything gathered so far. -/
def gatherChunks (store : String → CollectionResult) :
    List String → Except String (List Chunk)
  | [] => Except.ok []
  | n :: ns =>
    match processCollection store n with
    | Except.error e => Except.error e
    | Except.ok cs =>
      match gatherChunks store ns with
      | Except.error e => Except.error e
      | Except.ok rest => Except.ok (cs ++ rest)

/-- Stable insertion of a chunk after all strictly smaller distances and
before all equal or larger ones. -/
def insertChunk (c : Chunk) : List Chunk → List Chunk
  | [] => [c]
  | d :: ds => if d.distance < c.distance then d :: insertChunk c ds else c :: d :: ds

/-- The stable ascending sort by `distance` of line 86 (Python `list.sort`
with a key is stable; a stable sorted permutation is unique, so insertion
sort computes the same list). -/
def sortChunks : List Chunk → List Chunk
  | [] => []
  | c :: cs => insertChunk c (sortChunks cs)

/-- The JSON value printed by the script: the error object of line 89 or
the sorted chunk array of line 87. -/
inductive Parsed
  | errorObj (e : String)
  | arr (chunks : List Chunk)
deriving DecidableEq

/-- The whole generated Python script (lines 44-90) run against given
per-collection store data. -/
def runScript (store : String → CollectionResult) : Parsed :=
  match gatherChunks store priorityCollections with
  | Except.error e => Parsed.errorObj e
  | Except.ok chunks => Parsed.arr (sortChunks chunks)

/-- Behavior of the subprocess boundary as observed by `searchMemory`:
`execFileSync` throws (line 92), the timeout elapses (which also makes
`execFileSync` throw, line 93), the stdout has no line starting with `[`
or `{` (line 98), `JSON.parse` throws on the selected line (line 103), the
parsed value has neither the error-object nor the array shape (line 112),
or a parsed value is obtained. -/
inductive StoreOutcome
  | throws
  | timeout
  | noJsonLine
  | unparseable
  | otherShape
  | parsed (p : Parsed)
deriving DecidableEq

/-- Every boundary behavior other than a parsed chunk array: each of these
is an internal failure or error shape handled by lines 98-122. -/
def StoreOutcome.isFailure : StoreOutcome → Bool
  | StoreOutcome.parsed (Parsed.arr _) => false
  | _ => true

/-- The formatted candidate line of line 116. -/
def fmtChunk (c : Chunk) : String := "[" ++ c.source ++ "] " ++ c.text

/-- Lines 92-122 after the query has passed the length check: consult the
subprocess and map every failure shape to `[]` (the catch of lines
117-122 and the early returns of lines 99-114), otherwise format the
chunks. -/
def retrieveLines (query : String) (store : String → StoreOutcome) : List String :=
  match store (jsEscapeStr query) with
  | StoreOutcome.throws => []
  | StoreOutcome.timeout => []
  | StoreOutcome.noJsonLine => []
  | StoreOutcome.unparseable => []
  | StoreOutcome.otherShape => []
  | StoreOutcome.parsed (Parsed.errorObj _) => []
  | StoreOutcome.parsed (Parsed.arr []) => []
  | StoreOutcome.parsed (Parsed.arr (c :: cs)) => (c :: cs).map fmtChunk

/-- `searchMemory` (lines 27-123). -/
def searchMemory (messageText : String) (store : String → StoreOutcome) : List String :=
  let query := normalizeQuery messageText
  if query = "" ∨ query.length < MIN_MESSAGE_LENGTH then []
  else retrieveLines query store

/-- The fixed disclaimer header of line 165, up to and including the final
newline before the interpolated context. -/
def CONTEXT_HEADER : String :=
  "[Ambient memory — relevant context from past conversations]\n[These are past memories, not current truth. Facts may be outdated. Use them as background context to inform your reasoning, not as conclusions to repeat.]\n"

/-- The greedy packing loop of lines 152-158: stop (break) as soon as the
next chunk would push the accumulator past the budget, otherwise append it
behind a newline separator. -/
def buildContextLoop (context : String) : List String → String
  | [] => context
  | chunk :: rest =>
    if MAX_CONTEXT_CHARS < context.length + chunk.length + 2 then context
    else buildContextLoop (context ++ (if context = "" then "" else "\n") ++ chunk) rest

/-- The packing loop started on the empty accumulator. -/
def buildContext (chunks : List String) : String := buildContextLoop "" chunks

/-- Lines 147-165 after `searchMemory` returned: empty chunk list means
empty result; otherwise pack, and prepend the header if anything fit. -/
def assembleFromLines (chunks : List String) : String :=
  match chunks with
  | [] => ""
  | _ :: _ =>
    let context := buildContext chunks
    if context = "" then "" else CONTEXT_HEADER ++ context

/-- `resolveAmbientMemory` (lines 128-172): length gate, noise gate, then
retrieval and assembly. The surrounding try/catch is representable only
through the totality of this function together with the failure cases of
`StoreOutcome`; every internal failure is already mapped to `""`. -/
def resolveAmbientMemory (messageText : String) (store : String → StoreOutcome) : String :=
  if messageText = "" ∨ messageText.length < MIN_MESSAGE_LENGTH then ""
  else if noiseFilter messageText then ""
  else assembleFromLines (searchMemory messageText store)

/-- The faithful composition of the two layers: the subprocess actually
runs the generated script on the store data and prints one JSON line,
which parses back to exactly the printed value. -/
def storeOf (data : String → CollectionResult) : String → StoreOutcome :=
  fun _ => StoreOutcome.parsed (runScript data)

/-! Helper lemmas about strings. -/

/-- Appending the empty string on the right changes nothing. -/
theorem strAppendEmpty (s : String) : s ++ "" = s := by
  apply String.ext
  rw [String.data_append]
  exact List.append_nil s.data

/-- Appending the empty string on the left changes nothing. -/
theorem strEmptyAppend (s : String) : "" ++ s = s := by
  apply String.ext
  rw [String.data_append]
  rfl

/-- A nonempty string has positive length. -/
theorem strLengthPos {s : String} (h : s ≠ "") : 0 < s.length := by
  rcases s with ⟨l⟩
  cases l with
  | nil => exact absurd rfl h
  | cons c cs => simp [String.length]

/-- A string of positive length is nonempty. -/
theorem strNeEmpty {s : String} (h : 0 < s.length) : s ≠ "" := by
  intro heq
  rw [heq] at h
  simp [String.length] at h

/-! Concrete store data used by the closed theorems below. -/

/-- The rational 1/2, a representative in-ceiling distance, in
constructor-literal form so that concrete runs reduce in the kernel. -/
def half : ℚ := ⟨1, 2, by decide, by decide⟩

/-- A 400-character document (the source-side truncation bound). -/
def bigDoc : String := ⟨List.replicate 400 'a'⟩

/-- Store data with seven long fallback-tier matches, enough to fill the
character budget of the packing loop. -/
def bigData : String → CollectionResult := fun n =>
  if n = "telegram_memory" then
    CollectionResult.results (List.replicate 7 ⟨bigDoc, some half, some "s"⟩)
  else CollectionResult.missing

/-- Store data with a single fallback-tier match whose distance is
absent. -/
def dataAbsentDistance : String → CollectionResult := fun n =>
  if n = "telegram_memory" then
    CollectionResult.results [⟨"old deploy notes", none, some "s"⟩]
  else CollectionResult.missing

/-- Store data where the primary collection returns a malformed match
(absent distance, which raises a TypeError in the summary branch) while a
fallback collection holds a perfectly good candidate. -/
def dataMalformedPrimary : String → CollectionResult := fun n =>
  if n = "memory_summaries" then
    CollectionResult.results [⟨"summary text", none, some "p"⟩]
  else if n = "telegram_memory" then
    CollectionResult.results [⟨"good note", some half, some "t"⟩]
  else CollectionResult.missing

/-- The same store data with the malformed primary collection removed. -/
def dataHealthyFallback : String → CollectionResult := fun n =>
  if n = "telegram_memory" then
    CollectionResult.results [⟨"good note", some half, some "t"⟩]
  else CollectionResult.missing

/-- Store data with one relevant, in-ceiling fallback candidate. -/
def goodData : String → CollectionResult := fun n =>
  if n = "telegram_memory" then
    CollectionResult.results [⟨"Deploy via staging pipeline", some half, some "mem"⟩]
  else CollectionResult.missing

/-! Main claim theorems. -/

/-- C1: for every input message and every behavior of the vector-store
boundary in which the subprocess throws, times out, returns malformed
output, or returns an error object, `resolveAmbientMemory` returns the
empty string. (That it returns a string and never raises is the totality
of the embedding: every failure of the boundary is an explicit
`StoreOutcome` constructor mapped to a value, mirroring the try/catch
blocks of lines 37-122 and 129-171.) -/
theorem C1_failure_returns_empty (messageText : String) (store : String → StoreOutcome)
    (h : ∀ q, (store q).isFailure = true) :
    resolveAmbientMemory messageText store = "" := by
  unfold resolveAmbientMemory
  split
  · rfl
  split
  · rfl
  have hs : searchMemory messageText store = [] := by
    show (if normalizeQuery messageText = "" ∨
        (normalizeQuery messageText).length < MIN_MESSAGE_LENGTH then []
      else retrieveLines (normalizeQuery messageText) store) = []
    split
    · rfl
    unfold retrieveLines
    have hf := h (jsEscapeStr (normalizeQuery messageText))
    rcases hoc : store (jsEscapeStr (normalizeQuery messageText)) with _ | _ | _ | _ | _ | p
    · rfl
    · rfl
    · rfl
    · rfl
    · rfl
    rcases p with e | chunks
    · rfl
    rw [hoc] at hf
    simp [StoreOutcome.isFailure] at hf
  rw [hs]
  rfl

/-- Witness for C1 at a concrete message and an always-throwing store. -/
theorem C1_failure_returns_empty_witness :
    (∀ q, ((fun _ : String => StoreOutcome.throws) q).isFailure = true) ∧
    resolveAmbientMemory "What is the deployment process?" (fun _ => StoreOutcome.throws) = "" :=
  ⟨fun _ => rfl, C1_failure_returns_empty _ _ (fun _ => rfl)⟩

/-- C3 (code bug): at the admissible shared raw distance 0, the code does
not give the primary tier a strictly lower adjusted distance. The Python
expression `effective_dist or 99` treats the float 0.0 as falsy, so both
the primary candidate (0 * 0.8 = 0) and the fallback candidate (0) receive
the sentinel adjusted distance 99, and the two are equal instead of the
primary being strictly lower. -/
theorem C3_zero_distance_bug :
    effectiveDistance true 0 = 99 ∧ effectiveDistance false 0 = 99 ∧
    effectiveDistance true 0 = effectiveDistance false 0 ∧
    ¬ effectiveDistance true 0 < effectiveDistance false 0 ∧
    (∀ d : ℚ, 0 < d → d ≤ MAX_DISTANCE → effectiveDistance true d < effectiveDistance false d) := by
  refine ⟨by simp [effectiveDistance], by simp [effectiveDistance],
    by simp [effectiveDistance], by simp [effectiveDistance], ?_⟩
  intro d hd hdle
  rw [MAX_DISTANCE_eq] at hdle
  rw [effectiveDistance, effectiveDistance, SUMMARY_WEIGHT_eq]
  have h45 : d * (4 / 5) ≠ 0 := by positivity
  have hdne : d ≠ 0 := ne_of_gt hd
  simp only [if_true, if_false, h45, hdne, if_neg, Bool.false_eq_true, ite_false, ite_true]
  calc d * (4 / 5) < d * 1 := by
        apply mul_lt_mul_of_pos_left _ hd
        norm_num
    _ = d := mul_one d

/-- C4 (code bug): the priority weighting is not monotonic in the raw
distance at the left end of [0, MAX_DISTANCE]. Because the Python
expression `effective_dist or 99` treats 0.0 as falsy, a candidate with
raw distance 0 receives adjusted distance 99 while a same-tier candidate
with raw distance 2/5 receives 8/25, inverting their order; for strictly
positive raw distances the weighting is order-preserving. -/
theorem C4_monotonicity_bug :
    (0 : ℚ) < 2 / 5 ∧ (2 : ℚ) / 5 ≤ MAX_DISTANCE ∧
    effectiveDistance true (2 / 5) < effectiveDistance true 0 ∧
    ¬ effectiveDistance true 0 < effectiveDistance true (2 / 5) ∧
    (∀ d₁ d₂ : ℚ, 0 < d₁ → d₁ < d₂ → ∀ t : Bool,
      effectiveDistance t d₁ < effectiveDistance t d₂) := by
  refine ⟨by norm_num, by rw [MAX_DISTANCE_eq]; norm_num, ?_, ?_, ?_⟩
  · rw [effectiveDistance, effectiveDistance, SUMMARY_WEIGHT_eq]
    norm_num
  · rw [effectiveDistance, effectiveDistance, SUMMARY_WEIGHT_eq]
    norm_num
  intro d₁ d₂ h1 h12 t
  have h2 : (0:ℚ) < d₂ := lt_trans h1 h12
  cases t with
  | false =>
    rw [effectiveDistance, effectiveDistance]
    simp only [if_false, Bool.false_eq_true, ite_false]
    rw [if_neg (ne_of_gt h1), if_neg (ne_of_gt h2)]
    exact h12
  | true =>
    rw [effectiveDistance, effectiveDistance, SUMMARY_WEIGHT_eq]
    simp only [if_true, ite_true]
    have w1 : d₁ * (4 / 5) ≠ 0 := by positivity
    have w2 : d₂ * (4 / 5) ≠ 0 := by positivity
    rw [if_neg w1, if_neg w2]
    apply mul_lt_mul_of_pos_right h12
    norm_num

/-- C8: for every input shorter than the minimum length and for every
input containing one of the configured substring noise markers
(case-insensitively, checked on the raw message), `resolveAmbientMemory`
returns the empty string for every store behavior, i.e. regardless of the
store. -/
theorem C8_gates_return_empty (messageText : String) (store : String → StoreOutcome)
    (h : messageText.length < MIN_MESSAGE_LENGTH ∨
      ∃ m ∈ noiseMarkers, includesStr (lowerStr messageText) m = true) :
    resolveAmbientMemory messageText store = "" := by
  by_cases hA : messageText = "" ∨ messageText.length < MIN_MESSAGE_LENGTH
  · simp [resolveAmbientMemory, hA]
  rcases h with h | ⟨m, hm, hinc⟩
  · exact absurd (Or.inr h) hA
  have hnf : noiseFilter messageText = true := by
    simp only [noiseMarkers, List.mem_cons, List.not_mem_nil, or_false] at hm
    unfold noiseFilter
    rcases hm with rfl | rfl | rfl | rfl | rfl <;> simp [hinc]
  simp [resolveAmbientMemory, hA, hnf]

/-- Witness for C8 at a concrete noisy message and a store holding a good
candidate that is therefore never consulted. -/
theorem C8_gates_return_empty_witness :
    (("Cron Job: tidy the workspace").length < MIN_MESSAGE_LENGTH ∨
      ∃ m ∈ noiseMarkers, includesStr (lowerStr "Cron Job: tidy the workspace") m = true) ∧
    resolveAmbientMemory "Cron Job: tidy the workspace" (storeOf goodData) = "" :=
  ⟨by decide, C8_gates_return_empty _ _ (by decide)⟩

/-- C2 (counterexample): with seven long but in-ceiling fallback
candidates, the packing loop fills the body up to 2429 characters and the
fixed 216-character disclaimer header is prepended on top, so the string
returned by `resolveAmbientMemory` is 2645 characters long, exceeding
MAX_CONTEXT_CHARS = 2500. -/
theorem C2_counterexample :
    2500 < (resolveAmbientMemory "deployment process" (storeOf bigData)).length := by decide

/-- Bound on the packing loop: if the accumulator is under the budget by
at least one character, it stays so, because a chunk is only appended when
accumulator + chunk + 2 still fits the budget and the separator costs at
most 1. -/
theorem buildContextLoop_length_le (chunks : List String) (context : String)
    (h : context.length ≤ MAX_CONTEXT_CHARS - 1) :
    (buildContextLoop context chunks).length ≤ MAX_CONTEXT_CHARS - 1 := by
  induction chunks generalizing context with
  | nil => exact h
  | cons c cs ih =>
    unfold buildContextLoop
    split
    · exact h
    rename_i hle
    apply ih
    rw [Nat.not_lt] at hle
    rw [String.length_append, String.length_append]
    have hsep : (if context = "" then ("" : String) else "\n").length ≤ 1 := by
      split <;> decide
    unfold MAX_CONTEXT_CHARS at hle ⊢
    omega

/-- C2 (amended): the greedy packing bounds the assembled context body by
the budget (in fact by MAX_CONTEXT_CHARS - 1); the returned string equals
that body plus, when non-empty, the fixed disclaimer header, so the total
output length is bounded by CONTEXT_HEADER.length + MAX_CONTEXT_CHARS
rather than by MAX_CONTEXT_CHARS alone. -/
theorem C2_amended_length_bound (messageText : String) (store : String → StoreOutcome) :
    (buildContext (searchMemory messageText store)).length < MAX_CONTEXT_CHARS ∧
    (resolveAmbientMemory messageText store).length ≤
      CONTEXT_HEADER.length + MAX_CONTEXT_CHARS := by
  have hb : ∀ lines : List String, (buildContext lines).length ≤ MAX_CONTEXT_CHARS - 1 := by
    intro lines
    apply buildContextLoop_length_le
    simp [String.length_empty, MAX_CONTEXT_CHARS]
  constructor
  · have := hb (searchMemory messageText store)
    unfold MAX_CONTEXT_CHARS at this ⊢
    omega
  unfold resolveAmbientMemory
  split
  · simp [String.length_empty]
  split
  · simp [String.length_empty]
  rcases hc : searchMemory messageText store with _ | ⟨l, ls⟩
  · simp [assembleFromLines, String.length_empty]
  have hbc := hb (l :: ls)
  show (if buildContext (l :: ls) = "" then ("" : String)
    else CONTEXT_HEADER ++ buildContext (l :: ls)).length ≤ CONTEXT_HEADER.length + MAX_CONTEXT_CHARS
  split
  · simp [String.length_empty]
  rw [String.length_append]
  unfold MAX_CONTEXT_CHARS at hbc ⊢
  omega

/-- C5 (counterexample): a fallback-tier candidate whose distance is
absent is not discarded; it receives the sentinel adjusted distance 99 via
`effective_dist or 99` and appears in the final output. -/
theorem C5_counterexample :
    resolveAmbientMemory "deploy status" (storeOf dataAbsentDistance) =
      CONTEXT_HEADER ++ "[s] old deploy notes" ∧
    runScript dataAbsentDistance = Parsed.arr [⟨"old deploy notes", "s", 99, "raw"⟩] := by decide

/-- The Boolean keep-condition of the ceiling filter: a match is kept by
line 75 unless its distance is present and exceeds MAX_DISTANCE. -/
def keepMatch (m : MatchRow) : Bool :=
  match m.dist with
  | some d => !(decide (MAX_DISTANCE < d))
  | none => true

/-- Removing the over-ceiling matches from a collection result. -/
def dropHighMatches : CollectionResult → CollectionResult
  | CollectionResult.results ms => CollectionResult.results (ms.filter keepMatch)
  | r => r

/-- Unfolding equation for `processMatches` on a cons cell. -/
theorem processMatches_cons (colName : String) (m : MatchRow) (ms : List MatchRow) :
    processMatches colName (m :: ms) =
      match processMatch colName m with
      | Except.error e => Except.error e
      | Except.ok none => processMatches colName ms
      | Except.ok (some c) =>
        match processMatches colName ms with
        | Except.error e => Except.error e
        | Except.ok cs => Except.ok (c :: cs) := rfl

/-- Reduction of `processMatch` for a present distance. -/
theorem processMatch_someEq (colName : String) (m : MatchRow) (d : ℚ) (hd : m.dist = some d) :
    processMatch colName m =
      if MAX_DISTANCE < d then Except.ok none
      else Except.ok (some
        { text := ⟨m.doc.data.take 400⟩
          source := m.src.getD colName
          distance := effectiveDistance (colName == "memory_summaries") d
          type := if (colName == "memory_summaries") then "summary" else "raw" }) := by
  unfold processMatch
  rw [hd]

/-- Reduction of `processMatch` for an absent distance. -/
theorem processMatch_noneEq (colName : String) (m : MatchRow) (hd : m.dist = none) :
    processMatch colName m =
      if (colName == "memory_summaries") then Except.error "TypeError"
      else Except.ok (some
        { text := ⟨m.doc.data.take 400⟩
          source := m.src.getD colName
          distance := 99
          type := "raw" }) := by
  unfold processMatch
  rw [hd]

/-- Match processing ignores over-ceiling matches: filtering them out
first changes nothing. -/
theorem processMatches_dropHigh (colName : String) (ms : List MatchRow) :
    processMatches colName (ms.filter keepMatch) = processMatches colName ms := by
  induction ms with
  | nil => rfl
  | cons m ms ih =>
    rcases hd : m.dist with _ | d
    · have hk : keepMatch m = true := by unfold keepMatch; rw [hd]
      rw [List.filter_cons_of_pos hk, processMatches_cons, processMatches_cons,
        processMatch_noneEq colName m hd]
      by_cases hsum : (colName == "memory_summaries") = true
      · rw [if_pos hsum]
      · rw [if_neg hsum, ih]
    by_cases hgt : MAX_DISTANCE < d
    · have hk : ¬ keepMatch m = true := by
        unfold keepMatch
        rw [hd]
        simp [hgt]
      rw [List.filter_cons_of_neg hk, ih]
      conv_rhs => rw [processMatches_cons, processMatch_someEq colName m d hd, if_pos hgt]
    · have hk : keepMatch m = true := by
        unfold keepMatch
        rw [hd]
        simp [hgt]
      rw [List.filter_cons_of_pos hk, processMatches_cons, processMatches_cons,
        processMatch_someEq colName m d hd, if_neg hgt, ih]

/-- Collection processing ignores over-ceiling matches. -/
theorem processCollection_dropHigh (data : String → CollectionResult) (colName : String) :
    processCollection (fun n => dropHighMatches (data n)) colName =
      processCollection data colName := by
  rw [show processCollection (fun n => dropHighMatches (data n)) colName =
      (match dropHighMatches (data colName) with
        | CollectionResult.missing => Except.ok []
        | CollectionResult.empty => Except.ok []
        | CollectionResult.queryFails => Except.error "QueryError"
        | CollectionResult.results ms => processMatches colName ms) from rfl]
  unfold processCollection
  rcases data colName with _ | _ | _ | ms
  · rfl
  · rfl
  · rfl
  exact processMatches_dropHigh colName ms

/-- C5 (amended): every candidate whose raw distance is present and
exceeds the ceiling MAX_DISTANCE = 0.8 is discarded before ranking and
never influences the final output: removing all such matches from the
store data changes neither the chunk array produced by the script nor the
final string returned by `resolveAmbientMemory`. (Candidates with an
absent distance are not discarded: in a fallback tier they are kept with
sentinel adjusted distance 99, and in the primary tier they abort the
whole retrieval — see the counterexample.) -/
theorem C5_amended_ceiling_filter (data : String → CollectionResult) (messageText : String) :
    runScript (fun n => dropHighMatches (data n)) = runScript data ∧
    resolveAmbientMemory messageText (storeOf (fun n => dropHighMatches (data n))) =
      resolveAmbientMemory messageText (storeOf data) := by
  have h1 : runScript (fun n => dropHighMatches (data n)) = runScript data := by
    unfold runScript
    have hg : ∀ ns : List String,
        gatherChunks (fun n => dropHighMatches (data n)) ns = gatherChunks data ns := by
      intro ns
      induction ns with
      | nil => rfl
      | cons n ns ih =>
        unfold gatherChunks
        rw [processCollection_dropHigh, ih]
    rw [hg]
  refine ⟨h1, ?_⟩
  unfold storeOf
  rw [h1]

/-- C6 (counterexample): a malformed match in one collection invalidates
the candidates of the others. Here the primary collection returns a match
with absent distance, whose processing raises a TypeError outside the
per-collection try/except; the whole script reports an error object and
the good fallback candidate is lost, although with the malformed
collection absent it would have been returned. -/
theorem C6_counterexample :
    resolveAmbientMemory "deploy question" (storeOf dataMalformedPrimary) = "" ∧
    runScript dataMalformedPrimary = Parsed.errorObj "TypeError" ∧
    resolveAmbientMemory "deploy question" (storeOf dataHealthyFallback) =
      CONTEXT_HEADER ++ "[t] good note" := by decide

/-- C6 (amended): the failure isolation that does hold per collection is
for collection lookup: a missing collection (whose `get_collection` call
raises) behaves exactly like an empty one — it contributes nothing and
never blocks or invalidates the candidates of the other collections, for
every configuration of the remaining collections. (Failures while
querying or processing matches instead abort the whole retrieval — see
the counterexample.) -/
theorem C6_amended_missing_isolated (data : String → CollectionResult)
    (c : String) (messageText : String) :
    runScript (fun n => if n = c then CollectionResult.missing else data n) =
      runScript (fun n => if n = c then CollectionResult.empty else data n) ∧
    resolveAmbientMemory messageText
        (storeOf (fun n => if n = c then CollectionResult.missing else data n)) =
      resolveAmbientMemory messageText
        (storeOf (fun n => if n = c then CollectionResult.empty else data n)) := by
  have h1 : runScript (fun n => if n = c then CollectionResult.missing else data n) =
      runScript (fun n => if n = c then CollectionResult.empty else data n) := by
    unfold runScript
    have hg : ∀ ns : List String,
        gatherChunks (fun n => if n = c then CollectionResult.missing else data n) ns =
          gatherChunks (fun n => if n = c then CollectionResult.empty else data n) ns := by
      intro ns
      induction ns with
      | nil => rfl
      | cons n ns ih =>
        unfold gatherChunks
        have hpc : processCollection
            (fun n => if n = c then CollectionResult.missing else data n) n =
            processCollection (fun n => if n = c then CollectionResult.empty else data n) n := by
          unfold processCollection
          by_cases hn : n = c <;> simp [hn]
        rw [hpc, ih]
    rw [hg]
  refine ⟨h1, ?_⟩
  unfold storeOf
  rw [h1]

/-- C7 (counterexample): a message that begins directly with the
`System:` role marker, contains no other noise marker, and has a stripped
remainder well above the minimum length is nevertheless short-circuited
to the empty string by the `startsWith("system:")` noise check of
line 142 — while retrieval with its stripped query against the very same
store would have produced a non-empty context block. -/
theorem C7_counterexample :
    resolveAmbientMemory "System: deployment process" (storeOf goodData) = "" ∧
    normalizeQuery "System: deployment process" = "deployment process" ∧
    assembleFromLines (retrieveLines "deployment process" (storeOf goodData)) =
      CONTEXT_HEADER ++ "[mem] Deploy via staging pipeline" := by decide

/-! C9: the assembled body is the newline-join of a prefix of the
formatted-line sequence. -/

/-- Newline-join of lines, each behind a separator. -/
def prependNL : List String → String
  | [] => ""
  | x :: xs => "\n" ++ x ++ prependNL xs

/-- Newline-join of lines (the value the packing loop accumulates when it
accepts a prefix of the lines). -/
def joinNL : List String → String
  | [] => ""
  | x :: xs => x ++ prependNL xs

/-- A formatted candidate line is never the empty string. -/
theorem fmtChunk_ne (c : Chunk) : fmtChunk c ≠ "" := by
  apply strNeEmpty
  unfold fmtChunk
  simp only [String.length_append]
  have h1 : ("[" : String).length = 1 := rfl
  omega

/-- Every line returned by `searchMemory` is a formatted candidate and in
particular nonempty. -/
theorem searchMemory_lines_ne (messageText : String) (store : String → StoreOutcome) :
    ∀ s ∈ searchMemory messageText store, s ≠ "" := by
  intro s hs
  rw [show searchMemory messageText store =
      (if normalizeQuery messageText = "" ∨
          (normalizeQuery messageText).length < MIN_MESSAGE_LENGTH then []
        else retrieveLines (normalizeQuery messageText) store) from rfl] at hs
  split at hs
  · simp at hs
  unfold retrieveLines at hs
  rcases hoc : store (jsEscapeStr (normalizeQuery messageText)) with _ | _ | _ | _ | _ | p
  all_goals rw [hoc] at hs
  · simp at hs
  · simp at hs
  · simp at hs
  · simp at hs
  · simp at hs
  rcases p with e | chunks
  · simp at hs
  rcases chunks with _ | ⟨c, cs⟩
  · simp at hs
  simp only [List.mem_map] at hs
  obtain ⟨ch, _, rfl⟩ := hs
  exact fmtChunk_ne ch

/-- The packing loop started from a nonempty accumulator returns the
accumulator extended by a separator-prefixed prefix of the lines. -/
theorem buildContextLoop_take (chunks : List String) (context : String) (h : context ≠ "") :
    ∃ k, k ≤ chunks.length ∧
      buildContextLoop context chunks = context ++ prependNL (chunks.take k) := by
  induction chunks generalizing context with
  | nil =>
    refine ⟨0, Nat.le_refl 0, ?_⟩
    rw [show buildContextLoop context [] = context from rfl]
    rw [List.take_nil]
    rw [show prependNL [] = "" from rfl, strAppendEmpty]
  | cons c cs ih =>
    rw [show buildContextLoop context (c :: cs) =
        (if MAX_CONTEXT_CHARS < context.length + c.length + 2 then context
          else buildContextLoop
            (context ++ (if context = "" then "" else "\n") ++ c) cs) from rfl]
    rw [if_neg h]
    by_cases hbreak : MAX_CONTEXT_CHARS < context.length + c.length + 2
    · refine ⟨0, Nat.zero_le _, ?_⟩
      rw [if_pos hbreak, List.take_zero]
      rw [show prependNL [] = "" from rfl, strAppendEmpty]
    rw [if_neg hbreak]
    have hne : context ++ "\n" ++ c ≠ "" := by
      apply strNeEmpty
      rw [String.length_append, String.length_append]
      have := strLengthPos h
      omega
    obtain ⟨k, hk, heq⟩ := ih _ hne
    refine ⟨k + 1, Nat.succ_le_succ hk, ?_⟩
    rw [heq, List.take_succ_cons]
    rw [show prependNL (c :: cs.take k) = "\n" ++ c ++ prependNL (cs.take k) from rfl]
    simp only [String.append_assoc]

/-- Case analysis of `buildContext` on a nonempty line list whose head is
nonempty: either nothing fit, or the result is the newline-join of a
nonempty prefix of the lines. -/
theorem buildContext_cases (c : String) (cs : List String) (hc : c ≠ "") :
    buildContext (c :: cs) = "" ∨
    ∃ k, 0 < k ∧ k ≤ (c :: cs).length ∧
      buildContext (c :: cs) = joinNL ((c :: cs).take k) ∧ buildContext (c :: cs) ≠ "" := by
  unfold buildContext
  rw [show buildContextLoop "" (c :: cs) =
      (if MAX_CONTEXT_CHARS < ("" : String).length + c.length + 2 then ("" : String)
        else buildContextLoop
          ("" ++ (if ("" : String) = "" then "" else "\n") ++ c) cs) from rfl]
  split
  · left
    rfl
  right
  have hsimp : ("" : String) ++ (if ("" : String) = "" then ("" : String) else "\n") ++ c = c := by
    rw [if_pos rfl, strAppendEmpty, strEmptyAppend]
  rw [hsimp]
  obtain ⟨k, hk, heq⟩ := buildContextLoop_take cs c hc
  refine ⟨k + 1, Nat.succ_pos k, by simpa using Nat.succ_le_succ hk, ?_, ?_⟩
  · rw [heq, List.take_succ_cons]
    rfl
  · rw [heq]
    apply strNeEmpty
    rw [String.length_append]
    have := strLengthPos hc
    omega

/-- C9: the context body assembled by `resolveAmbientMemory` is the
newline-join of a prefix of the (globally sorted, formatted) candidate
lines returned by `searchMemory`: either the result is empty, or it is
the fixed header followed by the newline-join of the first `k` lines for
some positive `k` — every included line is a complete, unmodified
formatted candidate, and no line is truncated partway to fit the
budget. -/
theorem C9_whole_lines_only (messageText : String) (store : String → StoreOutcome) :
    resolveAmbientMemory messageText store = "" ∨
    ∃ k, 0 < k ∧ k ≤ (searchMemory messageText store).length ∧
      resolveAmbientMemory messageText store =
        CONTEXT_HEADER ++ joinNL ((searchMemory messageText store).take k) := by
  unfold resolveAmbientMemory
  split
  · left
    rfl
  split
  · left
    rfl
  have hnel := searchMemory_lines_ne messageText store
  rcases hsl : searchMemory messageText store with _ | ⟨l, ls⟩
  · left
    rfl
  rw [hsl] at hnel
  have hlne : l ≠ "" := hnel l (by simp)
  have hshow : assembleFromLines (l :: ls) =
      (if buildContext (l :: ls) = "" then ("" : String)
        else CONTEXT_HEADER ++ buildContext (l :: ls)) := rfl
  rw [hshow]
  rcases buildContext_cases l ls hlne with hempty | ⟨k, hk0, hklen, heq, hne⟩
  · left
    rw [if_pos hempty]
  right
  refine ⟨k, hk0, hklen, ?_⟩
  rw [if_neg hne, heq]

/-! C10: the query escaping, composed with Python string-literal decoding,
is the identity. -/

/-- Per-character view of the four sequential escape passes. -/
def escChar (c : Char) : List Char :=
  if c = '\\' then ['\\', '\\']
  else if c = '"' then ['\\', '"']
  else if c = '\n' then ['\\', 'n']
  else if c = '\r' then ['\\', 'r']
  else [c]

/-- One replacement pass distributes over list append. -/
theorem replAll_append (c : Char) (r x y : List Char) :
    replAll c r (x ++ y) = replAll c r x ++ replAll c r y := by
  induction x with
  | nil => rfl
  | cons a xs ih =>
    show (if a = c then r else [a]) ++ replAll c r (xs ++ y) = _
    rw [ih]
    rw [show replAll c r (a :: xs) = (if a = c then r else [a]) ++ replAll c r xs from rfl]
    rw [List.append_assoc]

/-- The composition of the four passes acts character by character. -/
theorem jsEscape_cons (c : Char) (l : List Char) :
    jsEscape (c :: l) = escChar c ++ jsEscape l := by
  unfold jsEscape escChar
  rw [show replAll '\\' ['\\', '\\'] (c :: l) =
      (if c = '\\' then ['\\', '\\'] else [c]) ++ replAll '\\' ['\\', '\\'] l from rfl]
  by_cases h1 : c = '\\'
  · subst h1
    rw [if_pos rfl, if_pos rfl]
    rw [replAll_append, replAll_append, replAll_append]
    rfl
  rw [if_neg h1, if_neg h1]
  rw [replAll_append, replAll_append, replAll_append]
  by_cases h2 : c = '"'
  · subst h2
    rfl
  by_cases h3 : c = '\n'
  · subst h3
    rw [if_neg h2]
    rfl
  by_cases h4 : c = '\r'
  · subst h4
    rw [if_neg h2, if_neg h3]
    rfl
  rw [if_neg h2, if_neg h3, if_neg h4]
  rw [show replAll '"' ['\\', '"'] [c] = (if c = '"' then ['\\', '"'] else [c]) ++ [] from rfl]
  rw [if_neg h2, List.append_nil]
  rw [show replAll '\n' ['\\', 'n'] [c] = (if c = '\n' then ['\\', 'n'] else [c]) ++ [] from rfl]
  rw [if_neg h3, List.append_nil]
  rw [show replAll '\r' ['\\', 'r'] [c] = (if c = '\r' then ['\\', 'r'] else [c]) ++ [] from rfl]
  rw [if_neg h4, List.append_nil]

/-- Python double-quoted string-literal decoding, restricted to the
behavior relevant to the generated script: an unescaped double quote
terminates the literal early and an unescaped line terminator is a
syntax error (both returned as `none`, i.e. the script structure is
altered); the escape sequences `\\`, `\"`, `\n`, `\r` decode to their
characters; any other backslash escape keeps the backslash. This is the
environment semantics against which the source-side escaping of lines
38-42 is verified; it is not part of the repository. -/
def pyUnescape : List Char → Option (List Char)
  | [] => some []
  | c :: rest =>
    if c = '"' then none
    else if c = '\n' then none
    else if c = '\r' then none
    else if c = '\\' then
      match rest with
      | [] => none
      | e :: rest2 =>
        match pyUnescape rest2 with
        | none => none
        | some tail =>
          if e = '\\' then some ('\\' :: tail)
          else if e = '"' then some ('"' :: tail)
          else if e = 'n' then some ('\n' :: tail)
          else if e = 'r' then some ('\r' :: tail)
          else some ('\\' :: e :: tail)
    else
      match pyUnescape rest with
      | none => none
      | some tail => some (c :: tail)

/-- Reduction of the decoder on an escaped backslash. -/
theorem pyUnescape_bsbs (rest : List Char) :
    pyUnescape ('\\' :: '\\' :: rest) =
      (match pyUnescape rest with
        | none => none
        | some tail => some ('\\' :: tail)) := rfl

/-- Reduction of the decoder on an escaped double quote. -/
theorem pyUnescape_bsq (rest : List Char) :
    pyUnescape ('\\' :: '"' :: rest) =
      (match pyUnescape rest with
        | none => none
        | some tail => some ('"' :: tail)) := rfl

/-- Reduction of the decoder on an escaped newline. -/
theorem pyUnescape_bsn (rest : List Char) :
    pyUnescape ('\\' :: 'n' :: rest) =
      (match pyUnescape rest with
        | none => none
        | some tail => some ('\n' :: tail)) := rfl

/-- Reduction of the decoder on an escaped carriage return. -/
theorem pyUnescape_bsr (rest : List Char) :
    pyUnescape ('\\' :: 'r' :: rest) =
      (match pyUnescape rest with
        | none => none
        | some tail => some ('\r' :: tail)) := rfl

/-- Reduction of the decoder on an ordinary character. -/
theorem pyUnescape_other (c : Char) (rest : List Char)
    (h2 : ¬ c = '"') (h3 : ¬ c = '\n') (h4 : ¬ c = '\r') (h1 : ¬ c = '\\') :
    pyUnescape (c :: rest) =
      (match pyUnescape rest with
        | none => none
        | some tail => some (c :: tail)) := by
  cases rest with
  | nil =>
    simp only [pyUnescape]
    rw [if_neg h2, if_neg h3, if_neg h4, if_neg h1]
  | cons e rest2 =>
    simp only [pyUnescape]
    rw [if_neg h2, if_neg h3, if_neg h4, if_neg h1]

theorem pyUnescape_jsEscape (l : List Char) : pyUnescape (jsEscape l) = some l := by
  induction l with
  | nil => rfl
  | cons c cs ih =>
    rw [jsEscape_cons]
    by_cases h1 : c = '\\'
    · subst h1
      rw [show escChar '\\' = ['\\', '\\'] from rfl]
      show pyUnescape ('\\' :: '\\' :: jsEscape cs) = some ('\\' :: cs)
      rw [pyUnescape_bsbs, ih]
    by_cases h2 : c = '"'
    · subst h2
      rw [show escChar '"' = ['\\', '"'] from rfl]
      show pyUnescape ('\\' :: '"' :: jsEscape cs) = some ('"' :: cs)
      rw [pyUnescape_bsq, ih]
    by_cases h3 : c = '\n'
    · subst h3
      rw [show escChar '\n' = ['\\', 'n'] from rfl]
      show pyUnescape ('\\' :: 'n' :: jsEscape cs) = some ('\n' :: cs)
      rw [pyUnescape_bsn, ih]
    by_cases h4 : c = '\r'
    · subst h4
      rw [show escChar '\r' = ['\\', 'r'] from rfl]
      show pyUnescape ('\\' :: 'r' :: jsEscape cs) = some ('\r' :: cs)
      rw [pyUnescape_bsr, ih]
    rw [show escChar c = [c] from by
      unfold escChar; rw [if_neg h1, if_neg h2, if_neg h3, if_neg h4]]
    show pyUnescape (c :: jsEscape cs) = some (c :: cs)
    rw [pyUnescape_other c (jsEscape cs) h2 h3 h4 h1, ih]

/-- C10: for every query string, the escaping of lines 38-42 composed
with Python double-quoted string-literal decoding yields back exactly the
original query — the decoding never hits an unescaped quote or a raw line
terminator (result `some`, i.e. no query content can alter the structure
of the generated script), and the decoded text equals the input. -/
theorem C10_escape_roundtrip (q : String) :
    pyUnescape ((jsEscapeStr q).data) = some q.data := by
  rw [show (jsEscapeStr q).data = jsEscape q.data from rfl]
  exact pyUnescape_jsEscape q.data

/-! C7: the role-marker stripping and when it takes effect. -/

/-- The bracket scanner consumes a `]`-free, terminator-free prefix up to
the first `]`. -/
theorem dropBracketAux_append (t s : List Char)
    (ht : ∀ ch ∈ t, ch ≠ ']' ∧ ch ≠ '\n' ∧ ch ≠ '\r') :
    dropBracketAux (t ++ ']' :: s) = some s := by
  induction t with
  | nil =>
    show dropBracketAux (']' :: s) = some s
    unfold dropBracketAux
    rw [if_pos rfl]
  | cons a t ih =>
    obtain ⟨ha1, ha2, ha3⟩ := ht a (by simp)
    show dropBracketAux (a :: (t ++ ']' :: s)) = some s
    unfold dropBracketAux
    rw [if_neg ha1, if_neg (by simp [ha2, ha3])]
    exact ih (fun ch hch => ht ch (by simp [hch]))

/-- The bracket stripper on a bracketed tag followed by a tail. -/
theorem stripBracketTag_tag (t tail : List Char)
    (ht : ∀ ch ∈ t, ch ≠ ']' ∧ ch ≠ '\n' ∧ ch ≠ '\r') :
    stripBracketTag ('[' :: (t ++ ']' :: tail)) = tail.dropWhile isJsSpace := by
  rw [show stripBracketTag ('[' :: (t ++ ']' :: tail)) =
      (match dropBracketAux (t ++ ']' :: tail) with
        | some after => after.dropWhile isJsSpace
        | none => '[' :: (t ++ ']' :: tail)) from rfl]
  rw [dropBracketAux_append t tail ht]

/-- The normalizer on a message of the shape `"[tag] System: rest"` with a
well-formed tag and an already-trimmed remainder: both prefixes are
stripped and the query is exactly the remainder. -/
theorem normalizeQuery_bracket_system (tag rest : String)
    (htag : ∀ ch ∈ tag.data, ch ≠ ']' ∧ ch ≠ '\n' ∧ ch ≠ '\r')
    (h1 : rest.data.dropWhile isJsSpace = rest.data)
    (h2 : rest.data.reverse.dropWhile isJsSpace = rest.data.reverse) :
    normalizeQuery ("[" ++ tag ++ "] System: " ++ rest) = rest := by
  have hdata : ("[" ++ tag ++ "] System: " ++ rest).data =
      '[' :: (tag.data ++
        ']' :: ' ' :: 'S' :: 'y' :: 's' :: 't' :: 'e' :: 'm' :: ':' :: ' ' :: rest.data) := by
    simp only [String.data_append]
    simp
  apply String.ext
  rw [show (normalizeQuery ("[" ++ tag ++ "] System: " ++ rest)).data =
      jsTrim (stripSystemTag (stripBracketTag
        ("[" ++ tag ++ "] System: " ++ rest).data)) from rfl]
  rw [hdata]
  rw [stripBracketTag_tag tag.data
    (' ' :: 'S' :: 'y' :: 's' :: 't' :: 'e' :: 'm' :: ':' :: ' ' :: rest.data) htag]
  rw [show ((' ' :: 'S' :: 'y' :: 's' :: 't' :: 'e' :: 'm' :: ':' :: ' ' :: rest.data).dropWhile
      isJsSpace) = 'S' :: 'y' :: 's' :: 't' :: 'e' :: 'm' :: ':' :: ' ' :: rest.data from rfl]
  rw [show stripSystemTag ('S' :: 'y' :: 's' :: 't' :: 'e' :: 'm' :: ':' :: ' ' :: rest.data) =
      rest.data.dropWhile isJsSpace from by
    unfold stripSystemTag
    rw [if_pos (show List.map Char.toLower
        (List.take 7 ('S' :: 'y' :: 's' :: 't' :: 'e' :: 'm' :: ':' :: ' ' :: rest.data)) =
        "system:".data from rfl)]
    rw [show ('S' :: 'y' :: 's' :: 't' :: 'e' :: 'm' :: ':' :: ' ' :: rest.data).drop 7 =
        ' ' :: rest.data from rfl]
    rw [show (' ' :: rest.data).dropWhile isJsSpace = rest.data.dropWhile isJsSpace from rfl]]
  rw [h1]
  unfold jsTrim
  rw [h1, h2, List.reverse_reverse]

/-- A raw message beginning directly with the `System:` marker is caught
by the `startsWith("system:")` noise check for every store behavior. -/
theorem resolve_system_rejected (rest : String) (st : String → StoreOutcome) :
    resolveAmbientMemory ("System: " ++ rest) st = "" := by
  have hlen8 : ("System: " ++ rest).length = 8 + rest.length := by
    rw [String.length_append]
    rfl
  have hsw : startsWithStr (lowerStr ("System: " ++ rest)) "system:" = true := by
    unfold startsWithStr lowerStr
    rw [show ("System: " ++ rest).data = "System: ".data ++ rest.data from String.data_append _ _]
    rw [show ("System: " : String).data =
        'S' :: 'y' :: 's' :: 't' :: 'e' :: 'm' :: ':' :: ' ' :: [] from rfl]
    rfl
  have hnf : noiseFilter ("System: " ++ rest) = true := by
    rw [show noiseFilter ("System: " ++ rest) =
        (includesStr (lowerStr ("System: " ++ rest)) "heartbeat" ||
          includesStr (lowerStr ("System: " ++ rest)) "self-ping keepalive" ||
          includesStr (lowerStr ("System: " ++ rest)) "read heartbeat.md" ||
          includesStr (lowerStr ("System: " ++ rest)) "cron job" ||
          includesStr (lowerStr ("System: " ++ rest)) "hook hook:" ||
          startsWithStr (lowerStr ("System: " ++ rest)) "system:") from rfl]
    rw [hsw]
    simp
  unfold resolveAmbientMemory
  rw [if_neg ?hcond, if_pos hnf]
  case hcond =>
    rintro (h | h)
    · rw [h] at hlen8
      simp [String.length_empty] at hlen8
      omega
    · rw [hlen8] at h
      unfold MIN_MESSAGE_LENGTH at h
      omega

/-- C7 (amended): a raw message that begins directly with the
case-insensitive `System:` marker is rejected by the noise filter for
every store behavior (first conjunct); the role-marker stripping takes
effect when the marker follows a leading bracketed tag: for a message
`"[tag] System: rest"` with a terminator-free tag, a trimmed remainder of
at least the minimum query length and no noise markers, the pipeline
strips both prefixes and proceeds to attempt retrieval with the stripped
remainder as the query (second and third conjuncts). -/
theorem C7_amended_bracketed_marker (tag rest : String) (store : String → StoreOutcome)
    (htag : ∀ ch ∈ tag.data, ch ≠ ']' ∧ ch ≠ '\n' ∧ ch ≠ '\r')
    (h1 : rest.data.dropWhile isJsSpace = rest.data)
    (h2 : rest.data.reverse.dropWhile isJsSpace = rest.data.reverse)
    (hnoise : noiseFilter ("[" ++ tag ++ "] System: " ++ rest) = false)
    (hlen : MIN_MESSAGE_LENGTH ≤ rest.length) :
    (∀ st : String → StoreOutcome, resolveAmbientMemory ("System: " ++ rest) st = "") ∧
    normalizeQuery ("[" ++ tag ++ "] System: " ++ rest) = rest ∧
    resolveAmbientMemory ("[" ++ tag ++ "] System: " ++ rest) store =
      assembleFromLines (retrieveLines rest store) := by
  have hq := normalizeQuery_bracket_system tag rest htag h1 h2
  refine ⟨resolve_system_rejected rest, hq, ?_⟩
  have hdata : ("[" ++ tag ++ "] System: " ++ rest).data =
      '[' :: (tag.data ++
        ']' :: ' ' :: 'S' :: 'y' :: 's' :: 't' :: 'e' :: 'm' :: ':' :: ' ' :: rest.data) := by
    simp only [String.data_append]
    simp
  have hmsglen : 2 ≤ ("[" ++ tag ++ "] System: " ++ rest).length := by
    rw [show ("[" ++ tag ++ "] System: " ++ rest).length =
        ("[" ++ tag ++ "] System: " ++ rest).data.length from rfl]
    rw [hdata]
    simp [List.length_append]
    omega
  unfold resolveAmbientMemory
  rw [if_neg ?hcondA, if_neg (by simp [hnoise])]
  case hcondA =>
    rintro (h | h)
    · rw [h] at hmsglen
      simp [String.length_empty] at hmsglen
    · unfold MIN_MESSAGE_LENGTH at h
      omega
  have hrestne : rest ≠ "" := by
    apply strNeEmpty
    unfold MIN_MESSAGE_LENGTH at hlen
    omega
  have hsm : searchMemory ("[" ++ tag ++ "] System: " ++ rest) store =
      retrieveLines rest store := by
    rw [show searchMemory ("[" ++ tag ++ "] System: " ++ rest) store =
        (if normalizeQuery ("[" ++ tag ++ "] System: " ++ rest) = "" ∨
            (normalizeQuery ("[" ++ tag ++ "] System: " ++ rest)).length < MIN_MESSAGE_LENGTH
          then []
          else retrieveLines (normalizeQuery ("[" ++ tag ++ "] System: " ++ rest)) store)
        from rfl]
    rw [hq]
    rw [if_neg ?hcondB]
    case hcondB =>
      rintro (h | h)
      · exact hrestne h
      · unfold MIN_MESSAGE_LENGTH at h hlen
        omega
  rw [hsm]

/-- Witness for the amended C7 at a concrete bracketed message and a
store holding one relevant candidate. -/
theorem C7_amended_bracketed_marker_witness :
    (∀ ch ∈ ("12:00" : String).data, ch ≠ ']' ∧ ch ≠ '\n' ∧ ch ≠ '\r') ∧
    ("deployment status" : String).data.dropWhile isJsSpace =
      ("deployment status" : String).data ∧
    ("deployment status" : String).data.reverse.dropWhile isJsSpace =
      ("deployment status" : String).data.reverse ∧
    noiseFilter ("[" ++ "12:00" ++ "] System: " ++ "deployment status") = false ∧
    MIN_MESSAGE_LENGTH ≤ ("deployment status" : String).length ∧
    ((∀ st : String → StoreOutcome,
        resolveAmbientMemory ("System: " ++ "deployment status") st = "") ∧
      normalizeQuery ("[" ++ "12:00" ++ "] System: " ++ "deployment status") =
        "deployment status" ∧
      resolveAmbientMemory ("[" ++ "12:00" ++ "] System: " ++ "deployment status")
          (storeOf goodData) =
        assembleFromLines (retrieveLines "deployment status" (storeOf goodData))) :=
  ⟨by decide, by decide, by decide, by decide, by decide,
    C7_amended_bracketed_marker "12:00" "deployment status" (storeOf goodData)
      (by decide) (by decide) (by decide) (by decide) (by decide)⟩

end AmbientMemory
